import Mathlib

/-
Verification of the tex_atlas texture-atlas container library.

The development is a shallow embedding of src/lib.rs:
  - usize values are modelled as Nat; subtractions that can underflow (and
    therefore panic in Rust) are modelled with an explicit checked
    subtraction returning Option.
  - f32 values are modelled as rationals; the only f32 operation the code
    performs is division of usize casts, modelled exactly by mkRat (which
    agrees with rational division, see fdiv_eq_div).
  - Rust HashMap is modelled as an association list whose insert replaces
    the previous binding of the key; get, len and iteration follow.
  - functions that can panic (index out of bounds, integer underflow)
    return Option, with none standing for the panic.
  - the external capabilities (zip archive, PNG codec, JSON) are modelled
    by value: an archive is a list of named entries, a PNG entry carries
    the decoded image (width, height, color type, raw top-left row-major
    bytes) or a decode failure, and a JSON entry carries the parsed chart
    record or a parse failure.  Writing an entry stores the value that the
    external encoder/decoder pair would round-trip.
-/

/-- Color space of the underlying image data (lib.rs ColorType). -/
inductive ColorType where
  | L8
  | La8
  | Rgb8
  | Rgba8
  | L16
  | La16
  | Rgb16
  | Rgba16
  | Bgr8
  | Bgra8
deriving DecidableEq, Repr

/-- Bytes per pixel of a color type (lib.rs lines 43-56). -/
def ColorType.bytes_per_pixel : ColorType → ℕ
  | ColorType.L8 => 1
  | ColorType.L16 => 2
  | ColorType.La8 => 2
  | ColorType.Rgb8 => 3
  | ColorType.Bgr8 => 3
  | ColorType.Rgba8 => 4
  | ColorType.Bgra8 => 4
  | ColorType.La16 => 4
  | ColorType.Rgb16 => 6
  | ColorType.Rgba16 => 8

/-- Channel count of a color type (lib.rs lines 59-72). -/
def ColorType.channel_count : ColorType → ℕ
  | ColorType.L8 => 1
  | ColorType.L16 => 1
  | ColorType.La8 => 2
  | ColorType.Rgb8 => 3
  | ColorType.Bgr8 => 3
  | ColorType.Rgba8 => 4
  | ColorType.Bgra8 => 4
  | ColorType.La16 => 2
  | ColorType.Rgb16 => 3
  | ColorType.Rgba16 => 4

/-- Bits per pixel (lib.rs lines 75-77). -/
def ColorType.bits_per_pixel (c : ColorType) : ℕ := 8 * c.bytes_per_pixel

/-- Error kinds of the codec (lib.rs ErrorKind). -/
inductive ErrorKind where
  | UnrecognizedColorType
  | CouldNotOpenTextureAtlas
  | CouldNotLoadCoordinateCharts
  | CouldNotLoadAtlasImageBuffer
  | Got32BitFloatingPointImageInsteadOfByteImage
  | MissingImageBuffer
  | MissingCoordinateCharts
deriving DecidableEq, Repr

/-- Error value: the kind together with the offending atlas name
(lib.rs TextureAtlas2DError; the boxed lower-level cause is dropped). -/
structure TextureAtlas2DError where
  kind : ErrorKind
  name : String
deriving DecidableEq, Repr

/-- Origin convention of an atlas page (lib.rs Origin). -/
inductive Origin where
  | TopLeft
  | BottomLeft
deriving DecidableEq, Repr

/-- Decode warnings (lib.rs TextureAtlas2DWarning). -/
inductive TextureAtlas2DWarning where
  | NoWarnings
  | TextureDimensionsAreNotAPowerOfTwo
deriving DecidableEq, Repr

/-- Model of f32 division of two usize casts, u as f32 / v as f32.
Exact rational division; agrees with HDiv.hDiv on the rationals. -/
def fdiv (a b : ℕ) : ℚ := mkRat a b

/-- Checked usize subtraction: Rust panics on underflow, modelled by none. -/
def checkedSub (a b : ℕ) : Option ℕ := if b ≤ a then some (a - b) else none

/-- Top left corner of a bounding box in texture coordinates
(lib.rs OffsetTexCoords). -/
structure OffsetTexCoords where
  u : ℚ
  v : ℚ
deriving DecidableEq, Repr

/-- Bounding box in texture coordinates (lib.rs BoundingBoxTexCoords). -/
structure BoundingBoxTexCoords where
  top_left : OffsetTexCoords
  width : ℚ
  height : ℚ
deriving DecidableEq, Repr

/-- Corners of a bounding box in texture coordinates
(lib.rs BoundingBoxCornersTexCoords). -/
structure BoundingBoxCornersTexCoords where
  top_left : OffsetTexCoords
  top_right : OffsetTexCoords
  bottom_left : OffsetTexCoords
  bottom_right : OffsetTexCoords
deriving DecidableEq, Repr

/-- Top left corner of a bounding box in pixels (lib.rs OffsetPixelCoords). -/
structure OffsetPixelCoords where
  u : ℕ
  v : ℕ
deriving DecidableEq, Repr

/-- Bounding box in pixels (lib.rs BoundingBoxPixelCoords). -/
structure BoundingBoxPixelCoords where
  top_left : OffsetPixelCoords
  width : ℕ
  height : ℕ
deriving DecidableEq, Repr

/-- Corners of a bounding box in pixels
(lib.rs BoundingBoxCornersPixelCoords). -/
structure BoundingBoxCornersPixelCoords where
  top_left : OffsetPixelCoords
  top_right : OffsetPixelCoords
  bottom_left : OffsetPixelCoords
  bottom_right : OffsetPixelCoords
deriving DecidableEq, Repr

/-- Association-list model of Rust HashMap lookup. -/
def hmGet {α β : Type} [DecidableEq α] : List (α × β) → α → Option β
  | [], _ => none
  | p :: rest, k => if p.1 = k then some p.2 else hmGet rest k

/-- Association-list model of Rust HashMap insert: the new binding replaces
any previous binding of the same key. -/
def hmInsert {α β : Type} [DecidableEq α] (m : List (α × β)) (k : α) (v : β) :
    List (α × β) :=
  (k, v) :: m.filter (fun p => p.1 ≠ k)

/-- Model of Rust HashMap len: maps are always built from the empty map by
hmInsert, so the list never holds two bindings of one key. -/
def hmLen {α β : Type} (m : List (α × β)) : ℕ := m.length

/-- Decoded image held by an atlas page (lib.rs TextureImage2D). -/
structure TextureImage2D where
  width : ℕ
  height : ℕ
  channel_count : ℕ
  bytes_per_pixel : ℕ
  color_type : ColorType
  data : List ℕ
deriving DecidableEq, Repr

/-- Constructor of TextureImage2D (lib.rs lines 363-372). -/
def TextureImage2D.new (width height : ℕ) (color_type : ColorType)
    (data : List ℕ) : TextureImage2D :=
  { width := width
    height := height
    channel_count := color_type.channel_count
    bytes_per_pixel := color_type.bytes_per_pixel
    color_type := color_type
    data := data }

/-- Pixel count of the image (lib.rs lines 375-377). -/
def TextureImage2D.len_pixels (img : TextureImage2D) : ℕ := img.width * img.height

/-- Byte count of the image: the length of the stored buffer
(lib.rs lines 380-382). -/
def TextureImage2D.len_bytes (img : TextureImage2D) : ℕ := img.data.length

/-- Entry of the in-memory texture index (lib.rs AtlasEntry). -/
structure AtlasEntry where
  name : String
  bounding_box_tex : BoundingBoxTexCoords
  bounding_box_pix : BoundingBoxPixelCoords
deriving DecidableEq, Repr

/-- Serialized form of one texture entry
(lib.rs TextureAtlas2DSerializationEntry). -/
structure TextureAtlas2DSerializationEntry where
  name : String
  bounding_box : BoundingBoxPixelCoords
deriving DecidableEq, Repr

/-- Serialized form of one page: origin plus the map index to entry
(lib.rs TextureAtlas2DSerialization). -/
structure TextureAtlas2DSerialization where
  origin : Origin
  coordinate_charts : List (ℕ × TextureAtlas2DSerializationEntry)
deriving DecidableEq, Repr

/-- One atlas page (lib.rs TextureAtlas2D). -/
structure TextureAtlas2D where
  width : ℕ
  height : ℕ
  channel_count : ℕ
  bytes_per_pixel : ℕ
  color_type : ColorType
  origin : Origin
  texture_names : List (String × ℕ)
  bounding_boxes : List (ℕ × AtlasEntry)
  atlas_name : String
  data : TextureImage2D
deriving DecidableEq, Repr

/-- Atlas entry built by one turn of the first loop of the page
constructor (lib.rs lines 489-497): the texture-coordinate box divides
every pixel quantity by the atlas dimensions. -/
def mkAtlasEntry (width height : ℕ) (name_i : String)
    (bounding_box_pix_i : BoundingBoxPixelCoords) : AtlasEntry :=
  let top_left_i := bounding_box_pix_i.top_left
  let u := fdiv top_left_i.u width
  let v := fdiv top_left_i.v height
  let offset_tex_i := OffsetTexCoords.mk u v
  let width_tex_i := fdiv bounding_box_pix_i.width width
  let height_tex_i := fdiv bounding_box_pix_i.height height
  let bounding_box_tex_i := BoundingBoxTexCoords.mk offset_tex_i width_tex_i height_tex_i
  AtlasEntry.mk name_i bounding_box_tex_i bounding_box_pix_i

/-- First loop of the page constructor (lib.rs lines 488-499): insert
every entry into the bounding box map under its index. -/
def mkBoundingBoxes (width height : ℕ)
    (entries : List (ℕ × String × BoundingBoxPixelCoords)) :
    List (ℕ × AtlasEntry) :=
  entries.foldl (fun m e => hmInsert m e.1 (mkAtlasEntry width height e.2.1 e.2.2)) []

/-- One turn of the second loop of the page constructor (lib.rs lines
502-505): index the bounding box map at i (a panicking map access,
hence Option) and insert the name. -/
def newNamesStep (bounding_boxes : List (ℕ × AtlasEntry))
    (m : List (String × ℕ)) (i : ℕ) : Option (List (String × ℕ)) :=
  (hmGet bounding_boxes i).map (fun e => hmInsert m e.name i)

/-- Page constructor (lib.rs lines 483-519).  The second loop indexes
bounding_boxes at every i below its len and panics when some index is
absent, hence the Option result.  No validation of the buffer length is
performed, exactly as in the source. -/
def TextureAtlas2D.new (width height : ℕ) (color_type : ColorType)
    (origin : Origin) (entries : List (ℕ × String × BoundingBoxPixelCoords))
    (atlas_name : String) (data : List ℕ) : Option TextureAtlas2D :=
  let image_data := TextureImage2D.new width height color_type data
  let bounding_boxes := mkBoundingBoxes width height entries
  let texture_names := (List.range (hmLen bounding_boxes)).foldlM
    (newNamesStep bounding_boxes) ([] : List (String × ℕ))
  texture_names.map (fun texture_names =>
    { width := width
      height := height
      channel_count := image_data.channel_count
      bytes_per_pixel := image_data.bytes_per_pixel
      color_type := color_type
      origin := origin
      texture_names := texture_names
      bounding_boxes := bounding_boxes
      atlas_name := atlas_name
      data := image_data })

/-- Pixel count of the page (lib.rs lines 523-525). -/
def TextureAtlas2D.len_pixels (a : TextureAtlas2D) : ℕ := a.data.len_pixels

/-- Byte count of the page (lib.rs lines 529-531). -/
def TextureAtlas2D.len_bytes (a : TextureAtlas2D) : ℕ := a.data.len_bytes

/-- Raw byte view of the page (lib.rs lines 540-542). -/
def TextureAtlas2D.as_bytes (a : TextureAtlas2D) : List ℕ := a.data.data

/-- Number of textures in the page (lib.rs lines 546-548). -/
def TextureAtlas2D.texture_count (a : TextureAtlas2D) : ℕ := hmLen a.texture_names

/-- Pixel bounding box of a texture by name (lib.rs lines 575-580).
The outer Option is the panic monad: the inner map access
bounding_boxes[index] panics when the index is absent. -/
def TextureAtlas2D.by_texture_name (a : TextureAtlas2D) (name : String) :
    Option (Option BoundingBoxPixelCoords) :=
  match hmGet a.texture_names name with
  | some index => (hmGet a.bounding_boxes index).map (fun e => some e.bounding_box_pix)
  | none => some none

/-- Texture-coordinate bounding box of a texture by name
(lib.rs lines 583-588). -/
def TextureAtlas2D.by_texture_name_uv (a : TextureAtlas2D) (name : String) :
    Option (Option BoundingBoxTexCoords) :=
  match hmGet a.texture_names name with
  | some index => (hmGet a.bounding_boxes index).map (fun e => some e.bounding_box_tex)
  | none => some none

/-- Pixel bounding box of a texture by index (lib.rs lines 591-597). -/
def TextureAtlas2D.by_index (a : TextureAtlas2D) (index : ℕ) :
    Option (Option BoundingBoxPixelCoords) :=
  if index < hmLen a.bounding_boxes then
    (hmGet a.bounding_boxes index).map (fun e => some e.bounding_box_pix)
  else
    some none

/-- Texture-coordinate bounding box of a texture by index
(lib.rs lines 600-606). -/
def TextureAtlas2D.by_index_uv (a : TextureAtlas2D) (index : ℕ) :
    Option (Option BoundingBoxTexCoords) :=
  if index < hmLen a.bounding_boxes then
    (hmGet a.bounding_boxes index).map (fun e => some e.bounding_box_tex)
  else
    some none

/-- Corner derivation shared by the four corner queries
(lib.rs lines 610-624): bottom rows subtract the box height from the v
coordinate of the top left corner, a usize subtraction that panics when
top_left.v is below the box height. -/
def cornersOfBox (bounding_box : BoundingBoxPixelCoords) :
    Option BoundingBoxCornersPixelCoords :=
  let width := bounding_box.width
  let height := bounding_box.height
  let top_left := bounding_box.top_left
  (checkedSub top_left.v height).map (fun vb =>
    let bottom_left := OffsetPixelCoords.mk top_left.u vb
    let top_right := OffsetPixelCoords.mk (top_left.u + width) top_left.v
    let bottom_right := OffsetPixelCoords.mk (top_left.u + width) vb
    { top_left := top_left
      top_right := top_right
      bottom_left := bottom_left
      bottom_right := bottom_right })

/-- Texture-coordinate corner derivation shared by the two uv corner
queries (lib.rs lines 629-654): the same usize subtraction happens before
the cast to f32. -/
def cornersOfBoxUv (atlas_width atlas_height : ℕ)
    (bounding_box : BoundingBoxPixelCoords) :
    Option BoundingBoxCornersTexCoords :=
  let width := bounding_box.width
  let height := bounding_box.height
  let top_left := bounding_box.top_left
  (checkedSub top_left.v height).map (fun vb =>
    let bottom_left := OffsetTexCoords.mk (fdiv top_left.u atlas_width) (fdiv vb atlas_height)
    let top_right := OffsetTexCoords.mk (fdiv (top_left.u + width) atlas_width) (fdiv top_left.v atlas_height)
    let bottom_right := OffsetTexCoords.mk (fdiv (top_left.u + width) atlas_width) (fdiv vb atlas_height)
    let top_left := OffsetTexCoords.mk (fdiv top_left.u atlas_width) (fdiv top_left.v atlas_height)
    { top_left := top_left
      top_right := top_right
      bottom_left := bottom_left
      bottom_right := bottom_right })

/-- Pixel corners of a texture by index (lib.rs lines 609-625). -/
def TextureAtlas2D.by_index_corners (a : TextureAtlas2D) (index : ℕ) :
    Option (Option BoundingBoxCornersPixelCoords) :=
  match a.by_index index with
  | none => none
  | some none => some none
  | some (some bounding_box) => (cornersOfBox bounding_box).map some

/-- Texture-coordinate corners of a texture by index
(lib.rs lines 628-655). -/
def TextureAtlas2D.by_index_corners_uv (a : TextureAtlas2D) (index : ℕ) :
    Option (Option BoundingBoxCornersTexCoords) :=
  match a.by_index index with
  | none => none
  | some none => some none
  | some (some bounding_box) => (cornersOfBoxUv a.width a.height bounding_box).map some

/-- Pixel corners of a texture by name (lib.rs lines 658-674). -/
def TextureAtlas2D.by_texture_name_corners (a : TextureAtlas2D) (name : String) :
    Option (Option BoundingBoxCornersPixelCoords) :=
  match a.by_texture_name name with
  | none => none
  | some none => some none
  | some (some bounding_box) => (cornersOfBox bounding_box).map some

/-- Texture-coordinate corners of a texture by name
(lib.rs lines 677-704). -/
def TextureAtlas2D.by_texture_name_corners_uv (a : TextureAtlas2D) (name : String) :
    Option (Option BoundingBoxCornersTexCoords) :=
  match a.by_texture_name name with
  | none => none
  | some none => some none
  | some (some bounding_box) => (cornersOfBoxUv a.width a.height bounding_box).map some

/-- Serialization record of a page (lib.rs lines 708-719): iterate the
texture names, look the index and the bounding box up (panicking map
accesses, hence Option), and build the chart map. -/
def TextureAtlas2D.coordinate_charts (a : TextureAtlas2D) :
    Option TextureAtlas2DSerialization :=
  (a.texture_names.foldlM
    (fun (m : List (ℕ × TextureAtlas2DSerializationEntry)) (p : String × ℕ) =>
      match hmGet a.texture_names p.1 with
      | none => none
      | some index =>
        match hmGet a.bounding_boxes index with
        | none => none
        | some bounding_box =>
          some (hmInsert m index
            (TextureAtlas2DSerializationEntry.mk p.1 bounding_box.bounding_box_pix)))
    ([] : List (ℕ × TextureAtlas2DSerializationEntry))).map
    (fun coordinate_charts => TextureAtlas2DSerialization.mk a.origin coordinate_charts)

/-- Multi-page atlas (lib.rs MultiTextureAtlas2D). -/
structure MultiTextureAtlas2D where
  pages : List TextureAtlas2D
  page_names : List (String × ℕ)
deriving DecidableEq, Repr

/-- Multi-page constructor (lib.rs lines 738-748). -/
def MultiTextureAtlas2D.new (pages : List TextureAtlas2D) (names : List String) :
    MultiTextureAtlas2D :=
  let page_names := (List.range names.length).foldl
    (fun m i => hmInsert m (names.getD i "") i) []
  { pages := pages, page_names := page_names }

/-- Page lookup by name (lib.rs lines 757-763); the inner pages[index]
access can panic when the index map is out of step with the pages list. -/
def MultiTextureAtlas2D.by_page_name (m : MultiTextureAtlas2D) (name : String) :
    Option (Option TextureAtlas2D) :=
  match hmGet m.page_names name with
  | some index => (m.pages.get? index).map some
  | none => some none

/-- Page lookup by index (lib.rs lines 766-772).  The source checks
index less than or equal to the page count and then indexes the pages
vector, which panics at index equal to the page count. -/
def MultiTextureAtlas2D.by_page_index (m : MultiTextureAtlas2D) (index : ℕ) :
    Option (Option TextureAtlas2D) :=
  if index ≤ m.pages.length then
    (m.pages.get? index).map some
  else
    some none

/-- Page count (lib.rs lines 776-778). -/
def MultiTextureAtlas2D.page_count (m : MultiTextureAtlas2D) : ℕ := m.pages.length

/-- Decode result of one page (lib.rs TextureAtlas2DResult). -/
structure TextureAtlas2DResult where
  atlas : TextureAtlas2D
  warnings : TextureAtlas2DWarning
deriving DecidableEq, Repr

/-- Decode result of a whole archive (lib.rs MultiTextureAtlas2DResult). -/
structure MultiTextureAtlas2DResult where
  multi_atlas : MultiTextureAtlas2D
  warnings : List TextureAtlas2DWarning
deriving DecidableEq, Repr

/-- Byte-level suffix test modelling Rust str::ends_with; the names in the
archive are ASCII, so the character list is the byte sequence. -/
def strEndsWith (s suffix : String) : Bool := suffix.data.isSuffixOf s.data

/-- Byte-level prefix slice modelling the Rust slice s[..n]. -/
def strTake (s : String) (n : ℕ) : String := String.mk (s.data.take n)

/-- Length in bytes of an ASCII name, modelling Rust str::len. -/
def strLen (s : String) : ℕ := s.data.length

/-- Byte-level comparison used by the sort of the entry names. -/
def charListLe : List Char → List Char → Bool
  | [], _ => true
  | _ :: _, [] => false
  | a :: as, b :: bs => if a < b then true else if b < a then false else charListLe as bs

/-- Lexicographic order on names, modelling the Ord instance of str. -/
def strLe (a b : String) : Bool := charListLe a.data b.data

/-- Sorted insertion used by sortNames. -/
def insertSorted (x : String) : List String → List String
  | [] => [x]
  | y :: ys => if strLe x y then x :: y :: ys else y :: insertSorted x ys

/-- Model of Vec::sort on entry names (a stable sort; the names the codec
sorts are distinct, so any comparison sort yields this list). -/
def sortNames (l : List String) : List String := l.foldr insertSorted []

/-- One in-place byte swap step of the row flip (lib.rs lines 816-818):
read a temporary, overwrite the first position with the second, write the
temporary into the second position. -/
def swapStep (image : List ℕ) (a b : ℕ) : List ℕ :=
  let temp := image.getD a 0
  let image2 := image.set a (image.getD b 0)
  image2.set b temp

/-- Inner column loop of the row flip: swap every byte of row rowA with
the byte in the same column of row rowB (lib.rs lines 815-819). -/
def swapRowsLoop (image : List ℕ) (rowA rowB width_in_bytes : ℕ) : List ℕ :=
  (List.range width_in_bytes).foldl
    (fun img col => swapStep img (rowA * width_in_bytes + col) (rowB * width_in_bytes + col))
    image

/-- Row flip of a raw buffer: for every row below height / 2 swap it with
the mirrored row (the loop of lib.rs lines 813-820, which also appears
verbatim in load_image_from_reader at lines 846-854). -/
def flipRowsLoop (image : List ℕ) (height width_in_bytes : ℕ) : List ℕ :=
  (List.range (height / 2)).foldl
    (fun img row => swapRowsLoop img row (height - row - 1) width_in_bytes)
    image

/-- Orientation transform (lib.rs orient_image, lines 811-822): flip the
rows when the origin is BottomLeft, otherwise leave the buffer alone. -/
def orient_image (image : List ℕ) (origin : Origin) (height width_in_bytes : ℕ) :
    List ℕ :=
  if origin = Origin.BottomLeft then flipRowsLoop image height width_in_bytes
  else image

/-- Decoded PNG as delivered by the external image codec: dimensions,
color type and the raw bytes in top-left row-major order. -/
structure PngImage where
  width : ℕ
  height : ℕ
  color_type : ColorType
  data : List ℕ
deriving DecidableEq, Repr

/-- Outcome of handing an entry to the PNG decoder. -/
inductive PngDecodeResult where
  | ok (png_image : PngImage)
  | err
deriving DecidableEq, Repr

/-- Contents of one archive entry: a metadata entry carries the parsed
chart record (none when the JSON is malformed), an image entry carries
the PNG decode outcome. -/
inductive EntryData where
  | json (charts : Option TextureAtlas2DSerialization)
  | png (result : PngDecodeResult)
deriving DecidableEq, Repr

/-- Archive model: the list of named entries of the zip file. -/
abbrev ZipArchive : Type := List (String × EntryData)

/-- Entry lookup by name, modelling ZipArchive::by_name. -/
def zipByName (zip_reader : ZipArchive) (name : String) : Option EntryData :=
  hmGet zip_reader name

/-- Feeding an entry to serde_json: only a well-formed metadata entry
parses into a chart record. -/
def entryCharts : EntryData → Option TextureAtlas2DSerialization
  | EntryData.json (some charts) => some charts
  | _ => none

/-- Feeding an entry to the PNG decoder: a metadata entry is not a PNG
stream and fails to decode. -/
def entryPng : EntryData → PngDecodeResult
  | EntryData.png result => result
  | _ => PngDecodeResult.err

/-- Image loading (lib.rs load_image_from_reader, lines 825-859): decode
the PNG, accept only the Rgba8 color type, then flip the rows of the
decoded buffer unconditionally (lines 846-854 run for every origin). -/
def load_image_from_reader (reader : PngDecodeResult) :
    Except TextureAtlas2DError TextureImage2D :=
  match reader with
  | PngDecodeResult.err =>
    Except.error (TextureAtlas2DError.mk ErrorKind.CouldNotLoadAtlasImageBuffer "")
  | PngDecodeResult.ok png_image =>
    match png_image.color_type with
    | ColorType.Rgba8 =>
      let width := png_image.width
      let height := png_image.height
      let bytes_per_pixel := ColorType.Rgba8.bytes_per_pixel
      let image_data := png_image.data
      let width_in_bytes := bytes_per_pixel * width
      let image_data := flipRowsLoop image_data height width_in_bytes
      Except.ok (TextureImage2D.new width height ColorType.Rgba8 image_data)
    | _ => Except.error (TextureAtlas2DError.mk ErrorKind.UnrecognizedColorType "")

/-- Single-page decode (lib.rs atlas_from_reader, lines 861-902): read and
parse the chart entry, read and decode the image entry, compute the
power-of-two warning, and construct the page.  The outer Option is the
panic monad of the page constructor. -/
def atlas_from_reader (zip_reader : ZipArchive) (page_name : String) :
    Option (Except TextureAtlas2DError TextureAtlas2DResult) :=
  match zipByName zip_reader (page_name ++ ".json") with
  | none => some (Except.error (TextureAtlas2DError.mk ErrorKind.CouldNotLoadCoordinateCharts page_name))
  | some coordinate_charts_file =>
    match entryCharts coordinate_charts_file with
    | none => some (Except.error (TextureAtlas2DError.mk ErrorKind.CouldNotLoadCoordinateCharts page_name))
    | some atlas_chart_data =>
      match zipByName zip_reader (page_name ++ ".png") with
      | none => some (Except.error (TextureAtlas2DError.mk ErrorKind.CouldNotLoadAtlasImageBuffer page_name))
      | some image_file =>
        match load_image_from_reader (entryPng image_file) with
        | Except.error e => some (Except.error e)
        | Except.ok tex_image =>
          let width := tex_image.width
          let height := tex_image.height
          let warnings :=
            -- The power-of-two check; width - 1 is truncated Nat subtraction
            -- here, and PNG dimensions are at least one, so no underflow case
            -- arises on this path.
            if (width &&& (width - 1)) ≠ 0 || (height &&& (height - 1)) ≠ 0 then
              TextureAtlas2DWarning.TextureDimensionsAreNotAPowerOfTwo
            else
              TextureAtlas2DWarning.NoWarnings
          let atlas_entries := atlas_chart_data.coordinate_charts.map
            (fun p => (p.1, p.2.name, p.2.bounding_box))
          match TextureAtlas2D.new width height tex_image.color_type
              atlas_chart_data.origin atlas_entries page_name tex_image.data with
          | none => none
          | some atlas => some (Except.ok (TextureAtlas2DResult.mk atlas warnings))

/-- Scan loop of the page discovery (lib.rs lines 914-939).  The index
accesses at i + 1 and at i + i are the unchecked vector accesses of the
source (note that the source really writes i + i, not i + 1, in the two
single-file branches); none models the out-of-bounds panic.  The first
argument is recursion fuel: every turn of the while loop advances i by at
least one, so starting the fuel at the length of the name list makes the
fuel-exhaustion case unreachable; it returns the accumulators exactly as
the loop exit does. -/
def extractNamesLoop (file_names : List String) :
    ℕ → ℕ → List String → List String → List String →
    Option (List String × List String × List String)
  | 0, _, atlas_names, atlases_missing_coordinates, atlases_missing_images =>
    some (atlas_names, atlases_missing_coordinates, atlases_missing_images)
  | gas + 1, i, atlas_names, atlases_missing_coordinates, atlases_missing_images =>
    if i < file_names.length then
      let fi := file_names.getD i ""
      if strEndsWith fi ".json" then
        match file_names.get? (i + 1) with
        | none => none
        | some fnext =>
          if strEndsWith fnext ".png" then
            let len := strLen fi - 5
            let atlas_name := strTake fi len
            extractNamesLoop file_names gas (i + 2) (atlas_names ++ [atlas_name])
              atlases_missing_coordinates atlases_missing_images
          else
            match file_names.get? (i + i) with
            | none => none
            | some fii =>
              if ¬ strEndsWith fii ".png" then
                let len := strLen fi - 5
                let atlas_name := strTake fi len
                extractNamesLoop file_names gas (i + 1) atlas_names
                  atlases_missing_coordinates (atlases_missing_images ++ [atlas_name])
              else
                extractNamesLoop file_names gas (i + 1) atlas_names
                  atlases_missing_coordinates atlases_missing_images
      else
        match file_names.get? (i + i) with
        | none => none
        | some fii =>
          if strEndsWith fii ".png" then
            let len := strLen fi - 4
            let atlas_name := strTake fi len
            extractNamesLoop file_names gas (i + 1) atlas_names
              (atlases_missing_coordinates ++ [atlas_name]) atlases_missing_images
          else
            extractNamesLoop file_names gas (i + 1) atlas_names
              atlases_missing_coordinates atlases_missing_images
    else
      some (atlas_names, atlases_missing_coordinates, atlases_missing_images)

/-- Page discovery (lib.rs extract_atlas_names, lines 904-942): keep the
entry names ending in .json or .png, sort them, and scan for pairs. -/
def extract_atlas_names (zip_reader : ZipArchive) :
    Option (List String × List String × List String) :=
  let file_names := sortNames ((zip_reader.map Prod.fst).filter
    (fun file_name => strEndsWith file_name ".json" || strEndsWith file_name ".png"))
  extractNamesLoop file_names file_names.length 0 [] [] []

/-- Page loop of the multi-page decode (lib.rs lines 966-979): decode the
pages in discovery order, pushing page, warning and name, and stop at the
first error. -/
def from_reader_loop (zip_reader : ZipArchive) (names : List String)
    (pages : List TextureAtlas2D) (warnings : List TextureAtlas2DWarning)
    (page_names : List String) :
    Option (Except TextureAtlas2DError
      (List TextureAtlas2D × List TextureAtlas2DWarning × List String)) :=
  match names with
  | [] => some (Except.ok (pages, warnings, page_names))
  | atlas_name :: rest =>
    match atlas_from_reader zip_reader atlas_name with
    | none => none
    | some (Except.error e) => some (Except.error e)
    | some (Except.ok atlas_result) =>
      from_reader_loop zip_reader rest (pages ++ [atlas_result.atlas])
        (warnings ++ [atlas_result.warnings]) (page_names ++ [atlas_name])

/-- Multi-page decode (lib.rs from_reader, lines 945-986).  The argument
is none when the byte source is not a zip archive. -/
def from_reader (reader : Option ZipArchive) :
    Option (Except TextureAtlas2DError MultiTextureAtlas2DResult) :=
  match reader with
  | none => some (Except.error (TextureAtlas2DError.mk ErrorKind.CouldNotOpenTextureAtlas ""))
  | some zip_reader =>
    match extract_atlas_names zip_reader with
    | none => none
    | some (atlas_names, atlases_missing_coordinates, atlases_missing_images) =>
      if atlases_missing_coordinates ≠ [] then
        some (Except.error (TextureAtlas2DError.mk ErrorKind.MissingCoordinateCharts
          (atlases_missing_coordinates.getD 0 "")))
      else if atlases_missing_images ≠ [] then
        some (Except.error (TextureAtlas2DError.mk ErrorKind.MissingImageBuffer
          (atlases_missing_images.getD 0 "")))
      else
        match from_reader_loop zip_reader atlas_names [] [] [] with
        | none => none
        | some (Except.error e) => some (Except.error e)
        | some (Except.ok (pages, warnings, page_names)) =>
          some (Except.ok (MultiTextureAtlas2DResult.mk
            (MultiTextureAtlas2D.new pages page_names) warnings))

/-- Encode of one page inside to_writer (lib.rs lines 995-1017): write the
chart entry, clone the image, orient the clone, and write the image entry
with the Rgba8 tag.  The returned page is the page as the loop leaves it
in memory: the orientation transform ran on the clone, so it is the input
page itself. -/
def encodePage (atlas : TextureAtlas2D) :
    Option (List (String × EntryData) × TextureAtlas2D) :=
  (atlas.coordinate_charts).map (fun charts =>
    let image := atlas.data
    let bytes_per_pixel := atlas.color_type.bytes_per_pixel
    let width_in_bytes := bytes_per_pixel * atlas.width
    let image := { image with
      data := orient_image image.data atlas.origin atlas.height width_in_bytes }
    ([(atlas.atlas_name ++ ".json", EntryData.json (some charts)),
      (atlas.atlas_name ++ ".png",
        EntryData.png (PngDecodeResult.ok
          (PngImage.mk atlas.width atlas.height ColorType.Rgba8 image.data)))],
     atlas))

/-- Entry-emitting loop of to_writer over the pages. -/
def to_writer_loop : List TextureAtlas2D → List (String × EntryData) →
    List TextureAtlas2D →
    Option (List (String × EntryData) × List TextureAtlas2D)
  | [], entries, pages_after => some (entries, pages_after)
  | atlas :: rest, entries, pages_after =>
    match encodePage atlas with
    | none => none
    | some (new_entries, atlas_after) =>
      to_writer_loop rest (entries ++ new_entries) (pages_after ++ [atlas_after])

/-- Multi-page encode (lib.rs to_writer, lines 990-1022): emit a chart
entry and an image entry per page and finish the archive.  The result
pairs the produced archive with the multi atlas as encode leaves it in
memory. -/
def to_writer (multi_atlas : MultiTextureAtlas2D) :
    Option (ZipArchive × MultiTextureAtlas2D) :=
  (to_writer_loop multi_atlas.pages [] []).map (fun r =>
    (r.1, MultiTextureAtlas2D.mk r.2 multi_atlas.page_names))

/-- Mirrored position of a byte inside a height by stride buffer: the byte
keeps its column and moves to the vertically mirrored row. -/
def mirrorIdx (height width_in_bytes i : ℕ) : ℕ :=
  (height - 1 - i / width_in_bytes) * width_in_bytes + i % width_in_bytes

/-- Mirrored position after only the first m row pairs were swapped: rows
below m and the last m rows are mirrored, the middle rows still sit in
place, and positions beyond the buffer are untouched. -/
def sigmaIdx (height width_in_bytes m i : ℕ) : ℕ :=
  if i / width_in_bytes < m ∨
      (height - m ≤ i / width_in_bytes ∧ i / width_in_bytes < height) then
    mirrorIdx height width_in_bytes i
  else
    i

/-- Image entry that to_writer emits for a page: the oriented copy of the
raw buffer under the Rgba8 tag. -/
def pngEntryOf (atlas : TextureAtlas2D) : String × EntryData :=
  (atlas.atlas_name ++ ".png",
    EntryData.png (PngDecodeResult.ok (PngImage.mk atlas.width atlas.height
      ColorType.Rgba8 (orient_image atlas.data.data atlas.origin atlas.height
        (atlas.color_type.bytes_per_pixel * atlas.width)))))

/-- Witness fixture: the page built from width 16, height 16, RGBA8,
BottomLeft, one texture t with box (0,8) 8 by 8 and an empty buffer. -/
def C3page : TextureAtlas2D :=
  { width := 16
    height := 16
    channel_count := 4
    bytes_per_pixel := 4
    color_type := ColorType.Rgba8
    origin := Origin.BottomLeft
    texture_names := [("t", 0)]
    bounding_boxes := [(0, mkAtlasEntry 16 16 "t" ⟨⟨0, 8⟩, 8, 8⟩)]
    atlas_name := "w"
    data := TextureImage2D.new 16 16 ColorType.Rgba8 [] }

/-- Witness fixture: the page built from width 1, height 1, RGBA8,
TopLeft, no textures and the four byte buffer 0,0,0,0. -/
def C6page : TextureAtlas2D :=
  { width := 1
    height := 1
    channel_count := 4
    bytes_per_pixel := 4
    color_type := ColorType.Rgba8
    origin := Origin.TopLeft
    texture_names := []
    bounding_boxes := []
    atlas_name := "p"
    data := TextureImage2D.new 1 1 ColorType.Rgba8 [0, 0, 0, 0] }

/-- Witness fixture: the page built from width 2, height 2, RGBA8,
TopLeft, one texture t with box (1,1) 2 by 2 and an empty buffer. -/
def C7page : TextureAtlas2D :=
  { width := 2
    height := 2
    channel_count := 4
    bytes_per_pixel := 4
    color_type := ColorType.Rgba8
    origin := Origin.TopLeft
    texture_names := [("t", 0)]
    bounding_boxes := [(0, mkAtlasEntry 2 2 "t" ⟨⟨1, 1⟩, 2, 2⟩)]
    atlas_name := "w"
    data := TextureImage2D.new 2 2 ColorType.Rgba8 [] }

/-- Witness fixture: a one-page multi atlas whose page has no textures. -/
def C9multi : MultiTextureAtlas2D :=
  { pages := [C6page]
    page_names := [("a", 0)] }

/-- Witness fixture: the archive and memory state that to_writer produces
on C9multi. -/
def C9out : ZipArchive × MultiTextureAtlas2D :=
  ([("p.json", EntryData.json (some ⟨Origin.TopLeft, []⟩)),
    ("p.png", EntryData.png (PngDecodeResult.ok
      (PngImage.mk 1 1 ColorType.Rgba8 [0, 0, 0, 0])))],
   C9multi)

/-- Witness fixture: a single-page archive that decodes successfully. -/
def C10zip : ZipArchive :=
  [("a.json", EntryData.json (some ⟨Origin.TopLeft, []⟩)),
   ("a.png", EntryData.png (PngDecodeResult.ok
     (PngImage.mk 1 1 ColorType.Rgba8 [0, 0, 0, 0])))]

/-- Witness fixture: the page that decoding C10zip constructs. -/
def C10page : TextureAtlas2D :=
  { width := 1
    height := 1
    channel_count := 4
    bytes_per_pixel := 4
    color_type := ColorType.Rgba8
    origin := Origin.TopLeft
    texture_names := []
    bounding_boxes := []
    atlas_name := "a"
    data := TextureImage2D.new 1 1 ColorType.Rgba8 [0, 0, 0, 0] }

/-- Witness fixture: the decode result of C10zip. -/
def C10res : MultiTextureAtlas2DResult :=
  { multi_atlas := { pages := [C10page], page_names := [("a", 0)] }
    warnings := [TextureAtlas2DWarning.NoWarnings] }

/-! ### Association map lemmas -/

theorem fdiv_eq_div (a b : ℕ) : fdiv a b = (a : ℚ) / (b : ℚ) := by
  simp [fdiv, Rat.mkRat_eq_div]


theorem hmGet_insert_self {α β : Type} [DecidableEq α] (m : List (α × β))
    (k : α) (v : β) : hmGet (hmInsert m k v) k = some v := by
  simp [hmGet, hmInsert]

theorem hmGet_filter_ne {α β : Type} [DecidableEq α] (m : List (α × β))
    (k k2 : α) (h : k2 ≠ k) :
    hmGet (m.filter (fun p => p.1 ≠ k)) k2 = hmGet m k2 := by
  induction m with
  | nil => rfl
  | cons p rest ih =>
    rw [List.filter_cons]
    by_cases hp : p.1 = k
    · have h2 : ¬ p.1 = k2 := fun hk2 => h (hk2 ▸ hp)
      simp only [ne_eq, hp, not_true_eq_false, decide_False, Bool.false_eq_true,
        if_false, ih, hmGet, h2]
      rw [if_neg (fun hk => h hk.symm)]
    · simp only [ne_eq, hp, not_false_eq_true, decide_True, if_true, hmGet, ih]

theorem hmGet_insert_ne {α β : Type} [DecidableEq α] (m : List (α × β))
    (k k2 : α) (v : β) (h : k2 ≠ k) :
    hmGet (hmInsert m k v) k2 = hmGet m k2 := by
  simp only [hmInsert, hmGet]
  rw [if_neg (fun hk => h hk.symm)]
  exact hmGet_filter_ne m k k2 h

theorem hmGet_mem {α β : Type} [DecidableEq α] {m : List (α × β)} {k : α}
    {v : β} (h : hmGet m k = some v) : (k, v) ∈ m := by
  induction m with
  | nil => simp [hmGet] at h
  | cons p rest ih =>
    by_cases hp : p.1 = k
    · simp only [hmGet, hp, if_true, Option.some.injEq] at h
      rw [show ((k, v) : α × β) = p from (Prod.ext hp h).symm]
      exact List.mem_cons_self p rest
    · simp only [hmGet, hp, if_false] at h
      exact List.mem_cons_of_mem p (ih h)

theorem mem_hmInsert {α β : Type} [DecidableEq α] {m : List (α × β)}
    {k : α} {v : β} {x : α × β} (h : x ∈ hmInsert m k v) :
    x = (k, v) ∨ x ∈ m := by
  rcases List.mem_cons.mp h with h1 | h1
  · exact Or.inl h1
  · exact Or.inr (List.mem_filter.mp h1).1

/-! ### Structure of the maps built by the page constructor -/

theorem mem_mkBoundingBoxes {width height : ℕ}
    {entries : List (ℕ × String × BoundingBoxPixelCoords)} {x : ℕ × AtlasEntry}
    (h : x ∈ mkBoundingBoxes width height entries) :
    ∃ t ∈ entries, x = (t.1, mkAtlasEntry width height t.2.1 t.2.2) := by
  suffices H : ∀ (l : List (ℕ × String × BoundingBoxPixelCoords))
      (acc : List (ℕ × AtlasEntry)),
      x ∈ l.foldl (fun m e => hmInsert m e.1 (mkAtlasEntry width height e.2.1 e.2.2)) acc →
      x ∈ acc ∨ ∃ t ∈ l, x = (t.1, mkAtlasEntry width height t.2.1 t.2.2) by
    rcases H entries [] h with h1 | h1
    · simp at h1
    · exact h1
  intro l
  induction l with
  | nil =>
    intro acc hx
    exact Or.inl hx
  | cons e rest ih =>
    intro acc hx
    rcases ih _ hx with h1 | h1
    · rcases mem_hmInsert h1 with h2 | h2
      · exact Or.inr ⟨e, List.mem_cons_self e rest, h2⟩
      · exact Or.inl h2
    · rcases h1 with ⟨t, ht, hxt⟩
      exact Or.inr ⟨t, List.mem_cons_of_mem e ht, hxt⟩

theorem foldlM_names_get_isSome {bounding_boxes : List (ℕ × AtlasEntry)} :
    ∀ (l : List ℕ) (acc r : List (String × ℕ)),
      l.foldlM (newNamesStep bounding_boxes) acc = some r →
      ∀ i ∈ l, (hmGet bounding_boxes i).isSome := by
  intro l
  induction l with
  | nil =>
    intro acc r _ i hi
    simp at hi
  | cons j rest ih =>
    intro acc r hfold i hi
    rw [List.foldlM_cons] at hfold
    rcases Option.bind_eq_some.mp hfold with ⟨acc2, hstep, hrest⟩
    rcases List.mem_cons.mp hi with h1 | h1
    · subst h1
      unfold newNamesStep at hstep
      rcases Option.map_eq_some'.mp hstep with ⟨e, he, _⟩
      simp [he]
    · exact ih acc2 r hrest i h1

theorem foldlM_names_values {bounding_boxes : List (ℕ × AtlasEntry)} {n : ℕ} :
    ∀ (l : List ℕ) (acc r : List (String × ℕ)),
      l.foldlM (newNamesStep bounding_boxes) acc = some r →
      (∀ p ∈ acc, p.2 < n) → (∀ i ∈ l, i < n) →
      ∀ p ∈ r, p.2 < n := by
  intro l
  induction l with
  | nil =>
    intro acc r hfold hacc _ p hp
    simp only [List.foldlM_nil, Option.pure_def, Option.some.injEq] at hfold
    exact hacc p (hfold ▸ hp)
  | cons j rest ih =>
    intro acc r hfold hacc hl p hp
    rw [List.foldlM_cons] at hfold
    rcases Option.bind_eq_some.mp hfold with ⟨acc2, hstep, hrest⟩
    unfold newNamesStep at hstep
    rcases Option.map_eq_some'.mp hstep with ⟨e, _, hacc2⟩
    refine ih acc2 r hrest ?_ (fun i hi => hl i (List.mem_cons_of_mem j hi)) p hp
    intro q hq
    rcases mem_hmInsert (hacc2 ▸ hq) with h1 | h1
    · rw [h1]
      exact hl j (List.mem_cons_self j rest)
    · exact hacc q h1

/-- Inversion of a successful page construction: the fields of the page. -/
theorem TextureAtlas2D.new_inv {width height : ℕ} {color_type : ColorType}
    {origin : Origin} {entries : List (ℕ × String × BoundingBoxPixelCoords)}
    {atlas_name : String} {data : List ℕ} {a : TextureAtlas2D}
    (h : TextureAtlas2D.new width height color_type origin entries atlas_name data = some a) :
    a.width = width ∧ a.height = height ∧
    a.channel_count = color_type.channel_count ∧
    a.bytes_per_pixel = color_type.bytes_per_pixel ∧
    a.color_type = color_type ∧ a.origin = origin ∧
    a.bounding_boxes = mkBoundingBoxes width height entries ∧
    a.atlas_name = atlas_name ∧
    a.data = TextureImage2D.new width height color_type data ∧
    (List.range (hmLen (mkBoundingBoxes width height entries))).foldlM
      (newNamesStep (mkBoundingBoxes width height entries)) [] = some a.texture_names := by
  unfold TextureAtlas2D.new at h
  rcases Option.map_eq_some'.mp h with ⟨tn, htn, ha⟩
  subst ha
  exact ⟨rfl, rfl, rfl, rfl, rfl, rfl, rfl, rfl, rfl, htn⟩

/-! ### Concrete fixtures and claim theorems about the observed bugs -/

/-- C1: the round-trip claim fails for the TopLeft origin.  A valid 1 by 2
RGBA8 page with origin TopLeft and buffer bytes 1..8 is encoded with
to_writer and decoded with from_reader; the decoded page carries the byte
buffer with its two pixel rows swapped, not the original buffer, because
load_image_from_reader flips the rows of every decoded image regardless
of the declared origin while to_writer flips only for BottomLeft. -/
theorem C1_roundtrip_topleft_data_flipped :
    (TextureAtlas2D.new 1 2 ColorType.Rgba8 Origin.TopLeft
        [(0, "t", ⟨⟨0, 1⟩, 1, 1⟩)] "a" [1, 2, 3, 4, 5, 6, 7, 8]).bind (fun P =>
      (to_writer (MultiTextureAtlas2D.new [P] ["a"])).bind (fun r =>
        (from_reader (some r.1)).map (Except.map (fun res =>
          res.multi_atlas.pages.map (fun q => q.data.data))))) =
      some (Except.ok [[5, 6, 7, 8, 1, 2, 3, 4]]) ∧
    ([5, 6, 7, 8, 1, 2, 3, 4] : List ℕ) ≠ [1, 2, 3, 4, 5, 6, 7, 8] :=
  ⟨rfl, by decide⟩

/-- C2: both discovery scenarios of the claim panic instead of returning
the missing-entry errors.  With the sorted relevant entry names
a.json, a.png, b.json the scan reaches i = 2, sees the json entry and
indexes file_names[3], which is out of bounds; with a.json, a.png, b.png
it reaches i = 2, sees a non-json entry and indexes file_names[2 + 2].
The none on the right is the modelled index-out-of-bounds panic. -/
theorem C2_missing_entry_scan_panics :
    from_reader (some [("a.json", EntryData.json (some ⟨Origin.TopLeft, []⟩)),
      ("a.png", EntryData.png (PngDecodeResult.ok ⟨1, 1, ColorType.Rgba8, [0, 0, 0, 0]⟩)),
      ("b.json", EntryData.json (some ⟨Origin.TopLeft, []⟩))]) = none ∧
    from_reader (some [("a.json", EntryData.json (some ⟨Origin.TopLeft, []⟩)),
      ("a.png", EntryData.png (PngDecodeResult.ok ⟨1, 1, ColorType.Rgba8, [0, 0, 0, 0]⟩)),
      ("b.png", EntryData.png (PngDecodeResult.ok ⟨1, 1, ColorType.Rgba8, [0, 0, 0, 0]⟩))]) = none :=
  ⟨rfl, rfl⟩

/-- C3 counterexample: a corner query can panic.  The page is well formed
(1 by 1 RGBA8, a four byte buffer, one texture with the spec-valid box at
top left (0,0) of width 1 and height 1), yet by_index_corners 0 hits the
usize subtraction top_left.v - height = 0 - 1 and panics (the inner none
below is the modelled underflow panic), refuting never panics. -/
theorem C3_counterexample_corner_query_panics :
    (TextureAtlas2D.new 1 1 ColorType.Rgba8 Origin.BottomLeft
        [(0, "t", ⟨⟨0, 0⟩, 1, 1⟩)] "c" [0, 0, 0, 0]).map
      (fun p => p.by_index_corners 0) = some none :=
  rfl

/-- C4: the decode path flips the rows of the pixel buffer even when the
declared origin is TopLeft.  The archive holds a TopLeft chart and a PNG
that decodes to the 1 by 2 RGBA8 buffer 1..8; the decoded page stores the
buffer with its rows swapped, while the claim says the stored buffer
equals the codec output unchanged for TopLeft. -/
theorem C4_decode_flips_regardless_of_origin :
    (from_reader (some [("a.json", EntryData.json (some ⟨Origin.TopLeft,
        [(0, ⟨"t", ⟨⟨0, 1⟩, 1, 1⟩⟩)]⟩)),
      ("a.png", EntryData.png (PngDecodeResult.ok
        ⟨1, 2, ColorType.Rgba8, [1, 2, 3, 4, 5, 6, 7, 8]⟩))])).map
      (Except.map (fun r => r.multi_atlas.pages.map (fun p => (p.origin, p.data.data)))) =
      some (Except.ok [(Origin.TopLeft, [5, 6, 7, 8, 1, 2, 3, 4])]) ∧
    ([5, 6, 7, 8, 1, 2, 3, 4] : List ℕ) ≠ [1, 2, 3, 4, 5, 6, 7, 8] :=
  ⟨rfl, by decide⟩

/-- C5: page lookup by index panics at index = page_count.  For a
one-page multi atlas the guard index <= pages.len() lets index 1 through
to pages[1], an out-of-bounds access (the inner none is the modelled
panic); the claim says every index at or above page_count returns None.
Indices strictly below and strictly above the page count behave as
claimed, which the second and third conjuncts record. -/
theorem C5_by_page_index_panics_at_page_count :
    (TextureAtlas2D.new 1 1 ColorType.Rgba8 Origin.TopLeft [] "p" [0, 0, 0, 0]).map
      (fun p => ((MultiTextureAtlas2D.new [p] ["a"]).by_page_index 1,
                 ((MultiTextureAtlas2D.new [p] ["a"]).by_page_index 0).map Option.isSome,
                 (MultiTextureAtlas2D.new [p] ["a"]).by_page_index 2)) =
      some (none, some true, some none) :=
  rfl

/-- C6 counterexample: page construction does not fail on a buffer length
mismatch.  TextureAtlas2D.new with width 1, height 1, RGBA8 and an empty
byte buffer succeeds and yields a page whose len_bytes is 0 while
width * height * bytes_per_pixel is 4. -/
theorem C6_counterexample_new_accepts_short_buffer :
    (TextureAtlas2D.new 1 1 ColorType.Rgba8 Origin.TopLeft [] "p" []).map
      (fun p => (p.len_bytes, p.width * p.height * p.bytes_per_pixel)) =
      some (0, 4) ∧ (0 : ℕ) ≠ 4 :=
  ⟨rfl, by decide⟩

/-- C6 (amended): every page satisfies len_pixels = width * height, and
len_bytes equals the length of the byte buffer the caller supplied; the
constructor performs no buffer-length validation, so len_bytes equals
width * height * bytes_per_pixel exactly when the caller supplies a
buffer of that length. -/
theorem C6_len_pixels_and_len_bytes {width height : ℕ} {color_type : ColorType}
    {origin : Origin} {entries : List (ℕ × String × BoundingBoxPixelCoords)}
    {atlas_name : String} {data : List ℕ} {a : TextureAtlas2D}
    (h : TextureAtlas2D.new width height color_type origin entries atlas_name data = some a) :
    a.len_pixels = a.width * a.height ∧
    a.len_bytes = data.length ∧
    (data.length = width * height * color_type.bytes_per_pixel →
      a.len_bytes = a.width * a.height * a.bytes_per_pixel) := by
  obtain ⟨hw, hh, _, hbpp, _, _, _, _, hdata, _⟩ := TextureAtlas2D.new_inv h
  refine ⟨?_, ?_, ?_⟩
  · rw [TextureAtlas2D.len_pixels, hdata, hw, hh]
    rfl
  · rw [TextureAtlas2D.len_bytes, hdata]
    rfl
  · intro hlen
    rw [TextureAtlas2D.len_bytes, hdata, hw, hh, hbpp]
    exact hlen

/-- C6 witness: the amended statement evaluated on the 1 by 1 RGBA8 page
with a four byte buffer. -/
theorem C6_len_pixels_and_len_bytes_witness :
    TextureAtlas2D.new 1 1 ColorType.Rgba8 Origin.TopLeft [] "p" [0, 0, 0, 0] =
      some C6page ∧
    (C6page.len_pixels = C6page.width * C6page.height ∧
      C6page.len_bytes = ([0, 0, 0, 0] : List ℕ).length ∧
      (([0, 0, 0, 0] : List ℕ).length = 1 * 1 * ColorType.Rgba8.bytes_per_pixel →
        C6page.len_bytes = C6page.width * C6page.height * C6page.bytes_per_pixel)) := by
  have h : TextureAtlas2D.new 1 1 ColorType.Rgba8 Origin.TopLeft [] "p" [0, 0, 0, 0] =
      some C6page := rfl
  exact ⟨h, C6_len_pixels_and_len_bytes h⟩

/-- C7: normalized texture coordinates are the pixel coordinates divided
by the atlas dimensions.  For every constructed page and every index
that resolves, the stored texture-coordinate box is componentwise the
pixel box divided by the atlas width and height (exactly, hence within
any floating-point tolerance); and in the concrete 16 by 16 scenario the
texture red at pixel top left (0,15) has by_texture_name_uv top left
(0, 15/16), that is (0.0, 0.9375). -/
theorem C7_uv_consistency :
    (∀ (width height : ℕ) (color_type : ColorType) (origin : Origin)
        (entries : List (ℕ × String × BoundingBoxPixelCoords))
        (atlas_name : String) (data : List ℕ) (a : TextureAtlas2D),
      TextureAtlas2D.new width height color_type origin entries atlas_name data = some a →
      ∀ (i : ℕ) (pix : BoundingBoxPixelCoords) (tex : BoundingBoxTexCoords),
        a.by_index i = some (some pix) → a.by_index_uv i = some (some tex) →
        tex.top_left.u = (pix.top_left.u : ℚ) / (a.width : ℚ) ∧
        tex.top_left.v = (pix.top_left.v : ℚ) / (a.height : ℚ) ∧
        tex.width = (pix.width : ℚ) / (a.width : ℚ) ∧
        tex.height = (pix.height : ℚ) / (a.height : ℚ)) ∧
    (TextureAtlas2D.new 16 16 ColorType.Rgba8 Origin.BottomLeft
        [(0, "red", ⟨⟨0, 15⟩, 8, 8⟩)] "atlas" (List.replicate 1024 0)).map
      (fun p => p.by_texture_name_uv "red") =
      some (some (some ⟨⟨0, mkRat 15 16⟩, mkRat 1 2, mkRat 1 2⟩)) ∧
    (mkRat 15 16 : ℚ) = 15 / 16 := by
  refine ⟨?_, rfl, by rw [Rat.mkRat_eq_div] ; norm_num⟩
  intro width height color_type origin entries atlas_name data a hnew i pix tex hpix htex
  obtain ⟨hw, hh, _, _, _, _, hboxes, _, _, _⟩ := TextureAtlas2D.new_inv hnew
  unfold TextureAtlas2D.by_index at hpix
  unfold TextureAtlas2D.by_index_uv at htex
  by_cases hil : i < hmLen a.bounding_boxes
  · rw [if_pos hil] at hpix htex
    rcases Option.map_eq_some'.mp hpix with ⟨e, he, hepix⟩
    rcases Option.map_eq_some'.mp htex with ⟨e2, he2, hetex⟩
    rw [he] at he2
    injection he2 with he2
    subst he2
    injection hepix with hepix
    injection hetex with hetex
    have hmem := hmGet_mem he
    rw [hboxes] at hmem
    rcases mem_mkBoundingBoxes hmem with ⟨t, _, ht⟩
    injection ht with _ hte
    subst hte
    rw [← hepix, ← hetex]
    simp [mkAtlasEntry, hw, hh, fdiv_eq_div]
  · rw [if_neg hil] at hpix
    injection hpix with hpix
    exact absurd hpix.symm (by simp)

/-- C7 witness: the general statement evaluated on the 2 by 2 page with
one texture whose box is (1,1) of width 2 and height 2. -/
theorem C7_uv_consistency_witness :
    TextureAtlas2D.new 2 2 ColorType.Rgba8 Origin.TopLeft
      [(0, "t", ⟨⟨1, 1⟩, 2, 2⟩)] "w" [] = some C7page ∧
    C7page.by_index 0 = some (some ⟨⟨1, 1⟩, 2, 2⟩) ∧
    C7page.by_index_uv 0 = some (some ⟨⟨mkRat 1 2, mkRat 1 2⟩, mkRat 2 2, mkRat 2 2⟩) ∧
    ((⟨⟨mkRat 1 2, mkRat 1 2⟩, mkRat 2 2, mkRat 2 2⟩ : BoundingBoxTexCoords).top_left.u =
        ((⟨⟨1, 1⟩, 2, 2⟩ : BoundingBoxPixelCoords).top_left.u : ℚ) / (C7page.width : ℚ) ∧
      (⟨⟨mkRat 1 2, mkRat 1 2⟩, mkRat 2 2, mkRat 2 2⟩ : BoundingBoxTexCoords).top_left.v =
        ((⟨⟨1, 1⟩, 2, 2⟩ : BoundingBoxPixelCoords).top_left.v : ℚ) / (C7page.height : ℚ) ∧
      (⟨⟨mkRat 1 2, mkRat 1 2⟩, mkRat 2 2, mkRat 2 2⟩ : BoundingBoxTexCoords).width =
        ((⟨⟨1, 1⟩, 2, 2⟩ : BoundingBoxPixelCoords).width : ℚ) / (C7page.width : ℚ) ∧
      (⟨⟨mkRat 1 2, mkRat 1 2⟩, mkRat 2 2, mkRat 2 2⟩ : BoundingBoxTexCoords).height =
        ((⟨⟨1, 1⟩, 2, 2⟩ : BoundingBoxPixelCoords).height : ℚ) / (C7page.height : ℚ)) :=
 by
  have h : TextureAtlas2D.new 2 2 ColorType.Rgba8 Origin.TopLeft
      [(0, "t", ⟨⟨1, 1⟩, 2, 2⟩)] "w" [] = some C7page := rfl
  have h1 : C7page.by_index 0 = some (some ⟨⟨1, 1⟩, 2, 2⟩) := rfl
  have h2 : C7page.by_index_uv 0 =
      some (some ⟨⟨mkRat 1 2, mkRat 1 2⟩, mkRat 2 2, mkRat 2 2⟩) := rfl
  exact ⟨h, h1, h2, C7_uv_consistency.1 2 2 ColorType.Rgba8 Origin.TopLeft
    [(0, "t", ⟨⟨1, 1⟩, 2, 2⟩)] "w" [] C7page h 0 ⟨⟨1, 1⟩, 2, 2⟩
    ⟨⟨mkRat 1 2, mkRat 1 2⟩, mkRat 2 2, mkRat 2 2⟩ h1 h2⟩

/-- C3 (amended): for every constructed page, every query returns None
(without panicking) when the name or index does not exist, and the
name, index and uv queries never panic; the four corner queries do not
panic on a stored box provided the box satisfies height at most
top_left.v — when top_left.v is below the box height the usize
subtraction of the corner derivation underflows and the query panics
(see the counterexample). -/
theorem C3_queries_total_and_corners_guarded :
    ∀ (width height : ℕ) (color_type : ColorType) (origin : Origin)
      (entries : List (ℕ × String × BoundingBoxPixelCoords))
      (atlas_name : String) (data : List ℕ) (a : TextureAtlas2D),
      TextureAtlas2D.new width height color_type origin entries atlas_name data = some a →
      (∀ name, hmGet a.texture_names name = none →
        a.by_texture_name name = some none ∧
        a.by_texture_name_uv name = some none ∧
        a.by_texture_name_corners name = some none ∧
        a.by_texture_name_corners_uv name = some none) ∧
      (∀ i, hmLen a.bounding_boxes ≤ i →
        a.by_index i = some none ∧
        a.by_index_uv i = some none ∧
        a.by_index_corners i = some none ∧
        a.by_index_corners_uv i = some none) ∧
      (∀ name, a.by_texture_name name ≠ none ∧ a.by_texture_name_uv name ≠ none) ∧
      (∀ i, a.by_index i ≠ none ∧ a.by_index_uv i ≠ none) ∧
      (∀ i pix, a.by_index i = some (some pix) → pix.height ≤ pix.top_left.v →
        a.by_index_corners i ≠ none ∧ a.by_index_corners_uv i ≠ none) ∧
      (∀ name pix, a.by_texture_name name = some (some pix) →
        pix.height ≤ pix.top_left.v →
        a.by_texture_name_corners name ≠ none ∧
        a.by_texture_name_corners_uv name ≠ none) := by
  intro width height color_type origin entries atlas_name data a hnew
  obtain ⟨_, _, _, _, _, _, hboxes, _, _, hfold⟩ := TextureAtlas2D.new_inv hnew
  have hvals : ∀ p ∈ a.texture_names, p.2 < hmLen a.bounding_boxes := by
    intro p hp
    rw [hboxes]
    refine foldlM_names_values (List.range (hmLen (mkBoundingBoxes width height entries)))
      [] a.texture_names hfold ?_ ?_ p hp
    · intro q hq
      simp at hq
    · intro i hi
      exact List.mem_range.mp hi
  have hgets : ∀ i < hmLen a.bounding_boxes, (hmGet a.bounding_boxes i).isSome := by
    intro i hi
    rw [hboxes]
    refine foldlM_names_get_isSome (List.range (hmLen (mkBoundingBoxes width height entries)))
      [] a.texture_names hfold i ?_
    rw [List.mem_range]
    rw [hboxes] at hi
    exact hi
  have hbtn : ∀ name, a.by_texture_name name ≠ none := by
    intro name
    unfold TextureAtlas2D.by_texture_name
    cases hname : hmGet a.texture_names name with
    | none => simp
    | some index =>
      have hidx := hvals (name, index) (hmGet_mem hname)
      have := hgets index hidx
      rcases Option.isSome_iff_exists.mp this with ⟨e, he⟩
      simp [he]
  have hbtnuv : ∀ name, a.by_texture_name_uv name ≠ none := by
    intro name
    unfold TextureAtlas2D.by_texture_name_uv
    cases hname : hmGet a.texture_names name with
    | none => simp
    | some index =>
      have hidx := hvals (name, index) (hmGet_mem hname)
      have := hgets index hidx
      rcases Option.isSome_iff_exists.mp this with ⟨e, he⟩
      simp [he]
  have hbi : ∀ i, a.by_index i ≠ none := by
    intro i
    unfold TextureAtlas2D.by_index
    by_cases hi : i < hmLen a.bounding_boxes
    · rw [if_pos hi]
      rcases Option.isSome_iff_exists.mp (hgets i hi) with ⟨e, he⟩
      simp [he]
    · rw [if_neg hi]
      simp
  have hbiuv : ∀ i, a.by_index_uv i ≠ none := by
    intro i
    unfold TextureAtlas2D.by_index_uv
    by_cases hi : i < hmLen a.bounding_boxes
    · rw [if_pos hi]
      rcases Option.isSome_iff_exists.mp (hgets i hi) with ⟨e, he⟩
      simp [he]
    · rw [if_neg hi]
      simp
  refine ⟨?_, ?_, fun name => ⟨hbtn name, hbtnuv name⟩, fun i => ⟨hbi i, hbiuv i⟩, ?_, ?_⟩
  · intro name hname
    have h1 : a.by_texture_name name = some none := by
      unfold TextureAtlas2D.by_texture_name
      rw [hname]
    have h2 : a.by_texture_name_uv name = some none := by
      unfold TextureAtlas2D.by_texture_name_uv
      rw [hname]
    refine ⟨h1, h2, ?_, ?_⟩
    · unfold TextureAtlas2D.by_texture_name_corners
      rw [h1]
    · unfold TextureAtlas2D.by_texture_name_corners_uv
      rw [h1]
  · intro i hi
    have h1 : a.by_index i = some none := by
      unfold TextureAtlas2D.by_index
      rw [if_neg (by omega)]
    have h2 : a.by_index_uv i = some none := by
      unfold TextureAtlas2D.by_index_uv
      rw [if_neg (by omega)]
    refine ⟨h1, h2, ?_, ?_⟩
    · unfold TextureAtlas2D.by_index_corners
      rw [h1]
    · unfold TextureAtlas2D.by_index_corners_uv
      rw [h1]
  · intro i pix hpix hguard
    constructor
    · unfold TextureAtlas2D.by_index_corners
      rw [hpix]
      simp [cornersOfBox, checkedSub, hguard]
    · unfold TextureAtlas2D.by_index_corners_uv
      rw [hpix]
      simp [cornersOfBoxUv, checkedSub, hguard]
  · intro name pix hpix hguard
    constructor
    · unfold TextureAtlas2D.by_texture_name_corners
      rw [hpix]
      simp [cornersOfBox, checkedSub, hguard]
    · unfold TextureAtlas2D.by_texture_name_corners_uv
      rw [hpix]
      simp [cornersOfBoxUv, checkedSub, hguard]

/-- C3 witness: the amended statement evaluated on a 16 by 16 page with
one texture t whose box (0,8) 8 by 8 satisfies the guard. -/
theorem C3_queries_total_and_corners_guarded_witness :
    TextureAtlas2D.new 16 16 ColorType.Rgba8 Origin.BottomLeft
      [(0, "t", ⟨⟨0, 8⟩, 8, 8⟩)] "w" [] = some C3page ∧
    C3page.by_texture_name "missing" = some none ∧
    C3page.by_index 5 = some none ∧
    C3page.by_index_corners 0 ≠ none ∧
    C3page.by_texture_name_corners "t" ≠ none := by
  have h : TextureAtlas2D.new 16 16 ColorType.Rgba8 Origin.BottomLeft
      [(0, "t", ⟨⟨0, 8⟩, 8, 8⟩)] "w" [] = some C3page := rfl
  have hall := C3_queries_total_and_corners_guarded 16 16 ColorType.Rgba8
    Origin.BottomLeft [(0, "t", ⟨⟨0, 8⟩, 8, 8⟩)] "w" [] C3page h
  refine ⟨h, (hall.1 "missing" rfl).1, (hall.2.1 5 (by decide)).1, ?_, ?_⟩
  · exact (hall.2.2.2.2.1 0 ⟨⟨0, 8⟩, 8, 8⟩ rfl (by decide)).1
  · exact (hall.2.2.2.2.2 "t" ⟨⟨0, 8⟩, 8, 8⟩ rfl (by decide)).1

/-- Encoding one page leaves the page unchanged and emits its chart entry
followed by its oriented-copy image entry. -/
theorem encodePage_spec {atlas : TextureAtlas2D}
    {r : List (String × EntryData) × TextureAtlas2D}
    (h : encodePage atlas = some r) :
    r.2 = atlas ∧ pngEntryOf atlas ∈ r.1 := by
  unfold encodePage at h
  rcases Option.map_eq_some'.mp h with ⟨charts, _, hr⟩
  subst hr
  refine ⟨rfl, ?_⟩
  simp [pngEntryOf]

/-- The encode loop returns the pages unchanged, in order, and its archive
holds the image entry of every page, while preserving entries already
written. -/
theorem to_writer_loop_spec :
    ∀ (l : List TextureAtlas2D) (entries : List (String × EntryData))
      (pages_after : List TextureAtlas2D)
      (out : List (String × EntryData) × List TextureAtlas2D),
      to_writer_loop l entries pages_after = some out →
      out.2 = pages_after ++ l ∧
      (∀ x ∈ entries, x ∈ out.1) ∧
      (∀ atlas ∈ l, pngEntryOf atlas ∈ out.1) := by
  intro l
  induction l with
  | nil =>
    intro entries pages_after out h
    unfold to_writer_loop at h
    injection h with h
    subst h
    refine ⟨by simp, fun x hx => hx, ?_⟩
    intro atlas ha
    simp at ha
  | cons atlas rest ih =>
    intro entries pages_after out h
    unfold to_writer_loop at h
    cases henc : encodePage atlas with
    | none => rw [henc] at h ; exact absurd h (by simp)
    | some r =>
      rw [henc] at h
      obtain ⟨hr2, hrpng⟩ := encodePage_spec henc
      obtain ⟨h1, h2, h3⟩ := ih (entries ++ r.1) (pages_after ++ [r.2]) out h
      refine ⟨?_, ?_, ?_⟩
      · rw [h1, hr2]
        simp
      · intro x hx
        exact h2 x (List.mem_append_left _ hx)
      · intro b hb
        rcases List.mem_cons.mp hb with hb1 | hb1
        · subst hb1
          exact h2 (pngEntryOf b) (List.mem_append_right _ hrpng)
        · exact h3 b hb1

/-- C9: encoding is effect-free on its input.  When to_writer succeeds,
the multi atlas it leaves in memory equals the input multi atlas (the
orientation transform runs on a clone of each raw buffer, never on the
page), and the archive holds, for every page, the image entry carrying
the oriented copy of that raw buffer. -/
theorem C9_to_writer_effect_free :
    ∀ (multi_atlas : MultiTextureAtlas2D) (r : ZipArchive × MultiTextureAtlas2D),
      to_writer multi_atlas = some r →
      r.2 = multi_atlas ∧ ∀ atlas ∈ multi_atlas.pages, pngEntryOf atlas ∈ r.1 := by
  intro multi_atlas r h
  unfold to_writer at h
  rcases Option.map_eq_some'.mp h with ⟨out, hout, hr⟩
  obtain ⟨h1, _, h3⟩ := to_writer_loop_spec multi_atlas.pages [] [] out hout
  subst hr
  constructor
  · show MultiTextureAtlas2D.mk out.2 multi_atlas.page_names = multi_atlas
    rw [h1]
    simp
  · intro atlas ha
    exact h3 atlas ha

/-- C9 witness: the statement evaluated on a one-page multi atlas. -/
theorem C9_to_writer_effect_free_witness :
    to_writer C9multi = some C9out ∧
    C9out.2 = C9multi ∧ pngEntryOf C6page ∈ C9out.1 := by
  have h : to_writer C9multi = some C9out := rfl
  have hall := C9_to_writer_effect_free C9multi C9out h
  exact ⟨h, hall.1, hall.2 C6page (List.mem_cons_self _ _)⟩

theorem load_image_ok_rgba8 {r : PngDecodeResult} {t : TextureImage2D}
    (h : load_image_from_reader r = Except.ok t) :
    t.color_type = ColorType.Rgba8 := by
  cases r with
  | err => simp [load_image_from_reader] at h
  | ok png_image =>
    obtain ⟨w, hh, ct, d⟩ := png_image
    cases ct <;> simp_all [load_image_from_reader, TextureImage2D.new]
    rw [← h]

theorem atlas_from_reader_ok_rgba8 {zip_reader : ZipArchive} {page_name : String}
    {res : TextureAtlas2DResult}
    (h : atlas_from_reader zip_reader page_name = some (Except.ok res)) :
    res.atlas.color_type = ColorType.Rgba8 := by
  unfold atlas_from_reader at h
  repeat' split at h
  all_goals simp_all
  split at h
  · simp at h
  · rename_i tex_image hl xopt atlas hn
    injection h with h
    injection h with h
    rw [← h]
    exact ((TextureAtlas2D.new_inv hn).2.2.2.2.1).trans (load_image_ok_rgba8 hl)

theorem from_reader_loop_rgba8 {zip_reader : ZipArchive} :
    ∀ (names : List String) (pages : List TextureAtlas2D)
      (warnings : List TextureAtlas2DWarning) (page_names : List String)
      (ps : List TextureAtlas2D) (ws : List TextureAtlas2DWarning)
      (ns : List String),
      from_reader_loop zip_reader names pages warnings page_names =
        some (Except.ok (ps, ws, ns)) →
      (∀ p ∈ pages, p.color_type = ColorType.Rgba8) →
      ∀ p ∈ ps, p.color_type = ColorType.Rgba8 := by
  intro names
  induction names with
  | nil =>
    intro pages warnings page_names ps ws ns h hacc p hp
    unfold from_reader_loop at h
    injection h with h
    injection h with h
    injection h with h1 h2
    exact hacc p (h1 ▸ hp)
  | cons atlas_name rest ih =>
    intro pages warnings page_names ps ws ns h hacc p hp
    unfold from_reader_loop at h
    cases ha : atlas_from_reader zip_reader atlas_name with
    | none => simp [ha] at h
    | some r =>
      cases r with
      | error e => simp [ha] at h
      | ok atlas_result =>
        rw [ha] at h
        refine ih (pages ++ [atlas_result.atlas]) (warnings ++ [atlas_result.warnings])
          (page_names ++ [atlas_name]) ps ws ns h ?_ p hp
        intro q hq
        rcases List.mem_append.mp hq with hq1 | hq1
        · exact hacc q hq1
        · rw [List.mem_singleton.mp hq1]
          exact atlas_from_reader_ok_rgba8 ha

/-- C10: decoding produces only Rgba8 pages.  An image entry whose
decoded PNG has any color type other than 8-bit RGBA makes the image
loader fail with UnrecognizedColorType (so no page is built from it),
and every page of every successful decode carries color type Rgba8. -/
theorem C10_decode_only_rgba8 :
    (∀ png_image : PngImage, png_image.color_type ≠ ColorType.Rgba8 →
      load_image_from_reader (PngDecodeResult.ok png_image) =
        Except.error (TextureAtlas2DError.mk ErrorKind.UnrecognizedColorType "")) ∧
    (∀ (zip_reader : ZipArchive) (res : MultiTextureAtlas2DResult),
      from_reader (some zip_reader) = some (Except.ok res) →
      ∀ p ∈ res.multi_atlas.pages, p.color_type = ColorType.Rgba8) := by
  constructor
  · intro png_image hct
    obtain ⟨w, hh, ct, d⟩ := png_image
    cases ct <;> simp_all [load_image_from_reader]
  · intro zip_reader res h p hp
    unfold from_reader at h
    repeat' split at h
    all_goals simp_all
    rename_i r0 zr x1 an amc ami x2 ps2 ws2 ns2 hzz hext hmc2 hmi2 hloop
    refine from_reader_loop_rgba8 an [] [] [] ps2 ws2 ns2 hloop
      (fun q hq => absurd hq (by simp)) p ?_
    rw [← h] at hp
    exact hp

/-- C10 witness: the statement evaluated on a non-RGBA image and on a
concrete archive that decodes successfully. -/
theorem C10_decode_only_rgba8_witness :
    (PngImage.mk 1 1 ColorType.Rgb8 [0, 0, 0] : PngImage).color_type ≠ ColorType.Rgba8 ∧
    load_image_from_reader (PngDecodeResult.ok (PngImage.mk 1 1 ColorType.Rgb8 [0, 0, 0])) =
      Except.error (TextureAtlas2DError.mk ErrorKind.UnrecognizedColorType "") ∧
    from_reader (some C10zip) = some (Except.ok C10res) ∧
    C10page.color_type = ColorType.Rgba8 := by
  have hne : (PngImage.mk 1 1 ColorType.Rgb8 [0, 0, 0] : PngImage).color_type ≠
      ColorType.Rgba8 := by decide
  have hdec : from_reader (some C10zip) = some (Except.ok C10res) := rfl
  refine ⟨hne, C10_decode_only_rgba8.1 (PngImage.mk 1 1 ColorType.Rgb8 [0, 0, 0]) hne,
    hdec, ?_⟩
  exact C10_decode_only_rgba8.2 C10zip C10res hdec C10page (List.mem_cons_self _ _)

/-! ### Pointwise description of the row flip -/

theorem getD_set_self {l : List ℕ} {i : ℕ} (h : i < l.length) (x : ℕ) :
    (l.set i x).getD i 0 = x := by
  simp [List.getD_eq_getElem?_getD, List.getElem?_set_self, h]

theorem getD_set_ne {l : List ℕ} {i j : ℕ} (h : i ≠ j) (x : ℕ) :
    (l.set i x).getD j 0 = l.getD j 0 := by
  simp [List.getD_eq_getElem?_getD, List.getElem?_set_ne, h]

theorem swapStep_length (img : List ℕ) (a b : ℕ) :
    (swapStep img a b).length = img.length := by
  simp [swapStep]

theorem swapStep_getD {img : List ℕ} {a b : ℕ} (ha : a < img.length)
    (hb : b < img.length) (i : ℕ) :
    (swapStep img a b).getD i 0 =
      if i = b then img.getD a 0
      else if i = a then img.getD b 0
      else img.getD i 0 := by
  unfold swapStep
  by_cases hib : i = b
  · subst hib
    rw [if_pos rfl]
    exact getD_set_self (by simpa using hb) _
  · rw [if_neg hib, getD_set_ne (fun hbi => hib hbi.symm)]
    by_cases hia : i = a
    · subst hia
      rw [if_pos rfl]
      exact getD_set_self ha _
    · rw [if_neg hia, getD_set_ne (fun hai => hia hai.symm)]

theorem swapRowsPartial_getD {img : List ℕ} {w rA rB : ℕ}
    (hAB : rA * w + w ≤ rB * w) (hB : rB * w + w ≤ img.length) :
    ∀ m, m ≤ w →
      (((List.range m).foldl
          (fun im col => swapStep im (rA * w + col) (rB * w + col)) img).length =
        img.length) ∧
      (∀ i, ((List.range m).foldl
          (fun im col => swapStep im (rA * w + col) (rB * w + col)) img).getD i 0 =
        if rA * w ≤ i ∧ i < rA * w + m then img.getD (rB * w + (i - rA * w)) 0
        else if rB * w ≤ i ∧ i < rB * w + m then img.getD (rA * w + (i - rB * w)) 0
        else img.getD i 0) := by
  intro m
  induction m with
  | zero =>
    intro _
    refine ⟨rfl, fun i => ?_⟩
    rw [if_neg (by omega), if_neg (by omega)]
    simp
  | succ m ih =>
    intro hm
    obtain ⟨ihlen, ihget⟩ := ih (by omega)
    rw [List.range_succ, List.foldl_append, List.foldl_cons, List.foldl_nil]
    have ha : rA * w + m < ((List.range m).foldl
        (fun im col => swapStep im (rA * w + col) (rB * w + col)) img).length := by
      rw [ihlen] ; omega
    have hb : rB * w + m < ((List.range m).foldl
        (fun im col => swapStep im (rA * w + col) (rB * w + col)) img).length := by
      rw [ihlen] ; omega
    refine ⟨by rw [swapStep_length, ihlen], fun i => ?_⟩
    rw [swapStep_getD ha hb i]
    by_cases hib : i = rB * w + m
    · subst hib
      rw [if_pos rfl, ihget]
      rw [if_neg (by omega), if_neg (by omega)]
      rw [if_neg (by omega), if_pos (by omega)]
      congr 1
      omega
    · rw [if_neg hib]
      by_cases hia : i = rA * w + m
      · subst hia
        rw [if_pos rfl, ihget]
        rw [if_neg (by omega), if_neg (by omega)]
        rw [if_pos (by omega)]
        congr 1
        omega
      · rw [if_neg hia, ihget]
        by_cases h1 : rA * w ≤ i ∧ i < rA * w + m
        · rw [if_pos h1, if_pos (by omega)]
        · rw [if_neg h1]
          by_cases h2 : rB * w ≤ i ∧ i < rB * w + m
          · rw [if_pos h2, if_neg (by omega), if_pos (by omega)]
          · rw [if_neg h2, if_neg (by omega), if_neg (by omega)]

theorem swapRowsLoop_getD {img : List ℕ} {w rA rB : ℕ}
    (hAB : rA * w + w ≤ rB * w) (hB : rB * w + w ≤ img.length) :
    (swapRowsLoop img rA rB w).length = img.length ∧
    ∀ i, (swapRowsLoop img rA rB w).getD i 0 =
      if rA * w ≤ i ∧ i < rA * w + w then img.getD (rB * w + (i - rA * w)) 0
      else if rB * w ≤ i ∧ i < rB * w + w then img.getD (rA * w + (i - rB * w)) 0
      else img.getD i 0 :=
  swapRowsPartial_getD hAB hB w le_rfl

theorem row_interval {r c q w : ℕ} (hc : c < w) :
    (q * w ≤ r * w + c ∧ r * w + c < q * w + w) ↔ r = q := by
  constructor
  · rintro ⟨h1, h2⟩
    rcases Nat.lt_trichotomy r q with hlt | heq | hgt
    · have h3 : (r + 1) * w ≤ q * w := Nat.mul_le_mul_right w hlt
      rw [Nat.add_mul, Nat.one_mul] at h3
      omega
    · exact heq
    · have h3 : (q + 1) * w ≤ r * w := Nat.mul_le_mul_right w hgt
      rw [Nat.add_mul, Nat.one_mul] at h3
      omega
  · rintro rfl
    omega

theorem flipPartial_getD {img : List ℕ} {h w : ℕ} (hlen : img.length = w * h) :
    ∀ m, m ≤ h / 2 →
      (((List.range m).foldl
          (fun im row => swapRowsLoop im row (h - row - 1) w) img).length =
        img.length) ∧
      (∀ r c, r < h → c < w →
        ((List.range m).foldl
            (fun im row => swapRowsLoop im row (h - row - 1) w) img).getD (r * w + c) 0 =
          if r < m ∨ h - m ≤ r then img.getD ((h - 1 - r) * w + c) 0
          else img.getD (r * w + c) 0) := by
  intro m
  induction m with
  | zero =>
    intro _
    refine ⟨rfl, fun r c hr hc => ?_⟩
    rw [if_neg (by omega)]
    simp
  | succ m ih =>
    intro hm
    obtain ⟨ihlen, ihget⟩ := ih (by omega)
    rw [List.range_succ, List.foldl_append, List.foldl_cons, List.foldl_nil]
    have hh2 : 2 * m + 2 ≤ h := by omega
    have hAB : m * w + w ≤ (h - m - 1) * w := by
      have h3 : (m + 1) * w ≤ (h - m - 1) * w := Nat.mul_le_mul_right w (by omega)
      rw [Nat.add_mul, Nat.one_mul] at h3
      exact h3
    have hB : (h - m - 1) * w + w ≤ ((List.range m).foldl
        (fun im row => swapRowsLoop im row (h - row - 1) w) img).length := by
      have h3 : (h - m - 1 + 1) * w ≤ h * w := Nat.mul_le_mul_right w (by omega)
      rw [Nat.add_mul, Nat.one_mul] at h3
      rw [ihlen, hlen, Nat.mul_comm w h]
      exact h3
    obtain ⟨hslen, hsget⟩ := swapRowsLoop_getD hAB hB
    refine ⟨by rw [hslen, ihlen], fun r c hr hc => ?_⟩
    rw [hsget (r * w + c)]
    by_cases hrm : r = m
    · subst hrm
      rw [if_pos (by omega)]
      have e1 : r * w + c - r * w = c := by omega
      rw [e1]
      have e2 : h - r - 1 = h - 1 - r := by omega
      rw [e2]
      rw [ihget (h - 1 - r) c (by omega) hc]
      rw [if_neg (by omega)]
      rw [if_pos (by omega)]
    · by_cases hrb : r = h - m - 1
      · subst hrb
        rw [if_neg (by omega), if_pos (by omega)]
        have e1 : (h - m - 1) * w + c - (h - m - 1) * w = c := by omega
        rw [e1]
        rw [ihget m c (by omega) hc]
        rw [if_neg (by omega)]
        rw [if_pos (by omega)]
        have e3 : h - 1 - (h - m - 1) = m := by omega
        rw [e3]
      · rw [if_neg (fun hcond => hrm ((row_interval hc).mp hcond)),
          if_neg (fun hcond => hrb ((row_interval hc).mp hcond))]
        rw [ihget r c hr hc]
        by_cases hcond : r < m ∨ h - m ≤ r
        · rw [if_pos hcond, if_pos (by omega)]
        · rw [if_neg hcond, if_neg (by omega)]

theorem flipRowsLoop_getD {img : List ℕ} {h w : ℕ} (hlen : img.length = w * h) :
    (flipRowsLoop img h w).length = img.length ∧
    ∀ r c, r < h → c < w →
      (flipRowsLoop img h w).getD (r * w + c) 0 =
        img.getD ((h - 1 - r) * w + c) 0 := by
  obtain ⟨hl, hg⟩ := flipPartial_getD hlen (h / 2) le_rfl
  unfold flipRowsLoop
  refine ⟨hl, fun r c hr hc => ?_⟩
  rw [hg r c hr hc]
  by_cases hcond : r < h / 2 ∨ h - h / 2 ≤ r
  · rw [if_pos hcond]
  · rw [if_neg hcond]
    have e : h - 1 - r = r := by omega
    rw [e]

theorem foldl_keep (l : List ℕ) (x : List ℕ) :
    l.foldl (fun a (_ : ℕ) => a) x = x := by
  induction l generalizing x with
  | nil => rfl
  | cons y ys ih => simp [ih x]

theorem flipRowsLoop_zero_width (x : List ℕ) (h : ℕ) :
    flipRowsLoop x h 0 = x := by
  unfold flipRowsLoop swapRowsLoop
  simp [foldl_keep (List.range (h / 2)) x]

theorem flipRowsLoop_involution {img : List ℕ} {h w : ℕ}
    (hlen : img.length = w * h) :
    flipRowsLoop (flipRowsLoop img h w) h w = img := by
  by_cases hw : w = 0
  · subst hw
    rw [flipRowsLoop_zero_width, flipRowsLoop_zero_width]
  · have hw1 : 0 < w := Nat.pos_of_ne_zero hw
    obtain ⟨hl1, hg1⟩ := flipRowsLoop_getD hlen
    have hlen2 : (flipRowsLoop img h w).length = w * h := by rw [hl1, hlen]
    obtain ⟨hl2, hg2⟩ := flipRowsLoop_getD hlen2
    apply List.ext_getElem
    · rw [hl2, hl1]
    · intro i h1 h2
      have hgd : ∀ (l : List ℕ) (hlt : i < l.length), l[i] = l.getD i 0 := by
        intro l hlt
        simp [List.getD_eq_getElem?_getD, List.getElem?_eq_getElem hlt]
      rw [hgd _ h1, hgd _ h2]
      have hc : i % w < w := Nat.mod_lt _ hw1
      have hr : i / w < h := by
        have hi2 : i < w * h := by rw [← hlen] ; exact h2
        rw [Nat.div_lt_iff_lt_mul hw1, Nat.mul_comm h w]
        exact hi2
      have hi_eq : (i / w) * w + i % w = i := by
        have h4 := Nat.div_add_mod i w
        rw [Nat.mul_comm] at h4
        exact h4
      rw [← hi_eq]
      rw [hg2 (i / w) (i % w) hr hc]
      have h0 : 0 < h := lt_of_le_of_lt (Nat.zero_le _) hr
      have hb1 : h - 1 - i / w < h := by
        rw [Nat.sub_sub]
        exact Nat.sub_lt h0 (lt_of_lt_of_le Nat.zero_lt_one (Nat.le_add_right 1 (i / w)))
      rw [hg1 (h - 1 - i / w) (i % w) hb1 hc]
      have e : h - 1 - (h - 1 - i / w) = i / w :=
        Nat.sub_sub_self (Nat.le_pred_of_lt hr)
      rw [e]

/-- C8: the orientation transform is an involution.  For every byte
buffer whose length is the row stride times the row count, applying
orient_image twice (in particular the BottomLeft row flip twice)
restores the original byte sequence exactly; for TopLeft the transform
is the identity. -/
theorem C8_orient_image_involution :
    ∀ (image : List ℕ) (origin : Origin) (height width_in_bytes : ℕ),
      image.length = width_in_bytes * height →
      orient_image (orient_image image origin height width_in_bytes) origin
        height width_in_bytes = image := by
  intro image origin height w hlen
  cases origin with
  | TopLeft => rfl
  | BottomLeft =>
    simp only [orient_image, if_pos rfl]
    exact flipRowsLoop_involution hlen

/-- C8 witness: the involution evaluated on a six byte buffer of three
rows of stride two. -/
theorem C8_orient_image_involution_witness :
    ([1, 2, 3, 4, 5, 6] : List ℕ).length = 2 * 3 ∧
    orient_image (orient_image [1, 2, 3, 4, 5, 6] Origin.BottomLeft 3 2)
      Origin.BottomLeft 3 2 = [1, 2, 3, 4, 5, 6] :=
  ⟨rfl, C8_orient_image_involution [1, 2, 3, 4, 5, 6] Origin.BottomLeft 3 2 rfl⟩

/-- Supporting observation for the round-trip analysis: on the same page
as in the TopLeft round-trip theorem but with origin BottomLeft, encode
followed by decode does restore the byte buffer exactly, because the
encode-side conditional flip then cancels the unconditional decode-side
flip. -/
theorem roundtrip_bottomleft_restores_data :
    (TextureAtlas2D.new 1 2 ColorType.Rgba8 Origin.BottomLeft
        [(0, "t", ⟨⟨0, 1⟩, 1, 1⟩)] "a" [1, 2, 3, 4, 5, 6, 7, 8]).bind (fun P =>
      (to_writer (MultiTextureAtlas2D.new [P] ["a"])).bind (fun r =>
        (from_reader (some r.1)).map (Except.map (fun res =>
          res.multi_atlas.pages.map (fun q => q.data.data))))) =
      some (Except.ok [[1, 2, 3, 4, 5, 6, 7, 8]]) :=
  rfl
